import Mathlib

/-!
Verification of the partitioned PostgreSQL triple store
(`rdflib_postgresql/PostgreSQL.py`): a shallow embedding of the
partition query planner, the UNION select builder, the result
reconstructor, the length computation, the clause builder, the
statement executor, the configuration parser and the schema
destroy logic, together with theorems settling the specified
properties.
-/

/-- The `rdf:type` URI (`rdflib.RDF.type`). -/
def rdfType : String := "http://www.w3.org/1999/02/22-rdf-syntax-ns#type"

/-- An RDF term as it can appear in a triple pattern: a URI reference, a
literal, a blank node, or a regex term (`REGEXTerm`).  A regex term records
whether its compiled expression matches the `rdf:type` URI
(`predicate.compiledExpr.match(RDF.type)`), which is the only use the
planner makes of the compiled pattern. -/
inductive Term where
  | uri (v : String)
  | literal (v : String)
  | bnode (v : String)
  | regex (v : String) (matchesType : Bool)
deriving DecidableEq, Repr

/-- Underlying string of a term (all rdflib term classes subclass `unicode`). -/
def Term.val : Term → String
  | .uri v => v
  | .literal v => v
  | .bnode v => v
  | .regex v _ => v

/-- Python truthiness of a term: rdflib terms subclass `unicode`, so a term
is falsy exactly when its string is empty. -/
def Term.truthy (t : Term) : Bool := t.val ≠ ""

/-- Python truthiness of an optional term (`not x` is true for `None` and
for empty strings). -/
def pyTruthy : Option Term → Bool
  | none => false
  | some t => t.truthy

/-- Python `isinstance(t, Literal)`. -/
def Term.isLiteral : Term → Bool
  | .literal _ => true
  | _ => false

/-- Python `isinstance(t, REGEXTerm)`. -/
def Term.isRegex : Term → Bool
  | .regex _ _ => true
  | _ => false

/-- Python `t == RDF.type`.  `URIRef`, `BNode` and `REGEXTerm` subclass
`unicode`, so comparison with the `rdf:type` `URIRef` is string equality;
a `Literal` never equals a plain `URIRef`. -/
def Term.eqRdfType : Term → Bool
  | .literal _ => false
  | t => t.val = rdfType

/-- Python `predicate == RDF.type` for an optional pattern component. -/
def pyEqRdfType : Option Term → Bool
  | none => false
  | some t => t.eqRdfType

/-- Python `isinstance(predicate, REGEXTerm) and predicate.compiledExpr.match(RDF.type)`. -/
def regexMatchesType : Option Term → Bool
  | some (.regex _ m) => m
  | _ => false

/-- Python `isinstance(o, Literal)` for an optional pattern component. -/
def objIsLiteral : Option Term → Bool
  | some t => t.isLiteral
  | none => false

/-- Python `isinstance(o, REGEXTerm)` for an optional pattern component. -/
def objIsRegex : Option Term → Bool
  | some t => t.isRegex
  | none => false

/-- An element of a list value given to `buildGenericClause`: a plain term
or a `Graph`/`QuotedGraph` (represented by its identifier). -/
inductive GCItem where
  | term (t : Term)
  | graph (ident : Term)
deriving DecidableEq, Repr

/-- A value given to `buildGenericClause`: `None`, a term, a
`Graph`/`QuotedGraph` (represented by its identifier), or a list of
alternatives. -/
inductive GCVal where
  | none
  | term (t : Term)
  | graph (ident : Term)
  | alts (items : List GCItem)
deriving DecidableEq, Repr

/-- The first component returned by `buildGenericClause`: either the Python
value `False` (from the final `value is not None and ... or None` branch for
a `None` value) or a clause string. -/
inductive ClauseRes where
  | fls
  | str (s : String)
deriving DecidableEq, Repr

/-- Python truthiness of a clause result (`False` and the empty string are
falsy). -/
def ClauseRes.pyTruthy : ClauseRes → Bool
  | .fls => false
  | .str s => s ≠ ""

/-- Modelled from the spec: `normalizeTerm` belongs to the external
`AbstractSQLStore` base class, whose term (de)serialization the spec
excludes from scope as an external collaborator (§1); it maps a term to its
stored string form and is modelled here as the identity on terms. -/
def normalizeTerm (t : Term) : Term := t

/-- Python `tableName and '%s.%s' % (tableName, generic) or generic`: the column
reference, qualified by the table name or alias when that is truthy. -/
def columnRef (tableName generic : String) : String :=
  if tableName ≠ "" then tableName ++ "." ++ generic else generic

/-- Translation of `PostgreSQL.buildGenericClause` (PostgreSQL.py lines 814-848).  Note the
regex branch: in `" REGEXP (%s, " + " %s)" % (...)` the `%` operator binds
to the second string literal only, so the column reference fills the second
slot and the literal `%s` placeholder (filled later with the bound
parameter) stays first. -/
def buildGenericClause (generic : String) (value : GCVal) (tableName : String) :
    ClauseRes × List (Option Term) :=
  match value with
  | .term t =>
    if t.isRegex then
      (.str (" REGEXP (%s, " ++ (" " ++ columnRef tableName generic ++ ")")), [some t])
    else if t.val = "NULL" then
      (.str (columnRef tableName generic ++ " is null"), [])
    else
      (.str (columnRef tableName generic ++ "=" ++ "%s"), [some t])
  | .alts items =>
    let pieces := items.map (fun it =>
      match it with
      | .term t =>
        if t.isRegex then
          ((" REGEXP (%s, " ++ (" " ++ columnRef tableName generic ++ ")")) ++ " %s",
            some (normalizeTerm t))
        else
          (columnRef tableName generic ++ "=" ++ "%s", some (normalizeTerm t))
      | .graph g => (columnRef tableName generic ++ "=" ++ "%s", some (normalizeTerm g)))
    (.str ("(" ++ String.intercalate (" or ") (pieces.map Prod.fst) ++ ")"),
      pieces.map Prod.snd)
  | .graph g =>
    (.str (columnRef tableName generic ++ "=" ++ "%s"), [some (normalizeTerm g)])
  | .none => (.fls, [Option.none])

/-- Lift an optional pattern component to a `buildGenericClause` value. -/
def toGCVal : Option Term → GCVal
  | none => GCVal.none
  | some t => GCVal.term t

/-- Translation of `buildSubjClause` (PostgreSQL.py line 865). -/
def buildSubjClause (subject : GCVal) (tableName : String) : ClauseRes × List (Option Term) :=
  buildGenericClause ("subject") subject tableName

/-- Translation of `buildPredClause` (PostgreSQL.py line 868). -/
def buildPredClause (predicate : GCVal) (tableName : String) : ClauseRes × List (Option Term) :=
  buildGenericClause ("predicate") predicate tableName

/-- Translation of `buildObjClause` (PostgreSQL.py line 871). -/
def buildObjClause (obj : GCVal) (tableName : String) : ClauseRes × List (Option Term) :=
  buildGenericClause ("object") obj tableName

/-- Translation of `buildContextClause` (PostgreSQL.py line 874): the context graph is
dereferenced to its (normalized) identifier before comparison; when the
normalized identifier is falsy the `or context` fallback passes the graph
object itself through. -/
def buildContextClause (context : Option Term) (tableName : String) :
    ClauseRes × List (Option Term) :=
  match context with
  | none => buildGenericClause ("context") GCVal.none tableName
  | some ident =>
    if (normalizeTerm ident).truthy then
      buildGenericClause ("context") (GCVal.term (normalizeTerm ident)) tableName
    else
      buildGenericClause ("context") (GCVal.graph ident) tableName

/-- Translation of `buildTypeMemberClause` (PostgreSQL.py line 880): the subject of an
`rdf:type` pattern is bound to the `member` column. -/
def buildTypeMemberClause (subject : GCVal) (tableName : String) : ClauseRes × List (Option Term) :=
  buildGenericClause ("member") subject tableName

/-- Translation of `buildTypeClassClause` (PostgreSQL.py line 883): the object of an
`rdf:type` pattern is bound to the `klass` column. -/
def buildTypeClassClause (obj : GCVal) (tableName : String) : ClauseRes × List (Option Term) :=
  buildGenericClause ("klass") obj tableName

/-- Modelled from the spec: `buildClause` lives in the external
`AbstractSQLStore` base class (only its per-column helpers are overridden in
this repository).  Per §4.1 it combines the per-column fragments — for the
type table the `member` clause of the subject, the `klass` clause of the
object and the context clause, otherwise the subject, predicate, object and
context clauses — keeps the truthy fragments, joins them with `" and "` and
prefixes `"where "`; wildcard components contribute no fragment and no
parameters. -/
def buildClause (tableAlias : String) (subject predicate obj : Option Term)
    (context : Option Term) (typeTable : Bool) : String × List (Option Term) :=
  let pieces : List (ClauseRes × List (Option Term)) :=
    if typeTable then
      [buildTypeMemberClause (toGCVal subject) tableAlias,
       buildTypeClassClause (toGCVal obj) tableAlias,
       buildContextClause context tableAlias]
    else
      [buildSubjClause (toGCVal subject) tableAlias,
       buildPredClause (toGCVal predicate) tableAlias,
       buildObjClause (toGCVal obj) tableAlias,
       buildContextClause context tableAlias]
  let used := pieces.filter (fun pr => pr.1.pyTruthy)
  let clauseStrings := used.filterMap (fun pr =>
    match pr.1 with
    | .str s => some s
    | .fls => Option.none)
  let clauseString := String.intercalate (" and ") clauseStrings
  let params := used.foldl (fun acc pr => acc ++ pr.2) []
  (if clauseString = "" then ("") else ("where " ++ clauseString), params)

/-- The four table partition kinds (`ASSERTED_NON_TYPE_PARTITION`,
`ASSERTED_TYPE_PARTITION`, `QUOTED_PARTITION`,
`ASSERTED_LITERAL_PARTITION`). -/
inductive TableType where
  | assertedNonType
  | assertedType
  | quoted
  | assertedLiteral
deriving DecidableEq, Repr

/-- Constant `FULL_TRIPLE_PARTITIONS`: the partitions whose tables natively carry the
full 7-column triple shape. -/
def FULL_TRIPLE_PARTITIONS : List TableType := [.quoted, .assertedLiteral]

/-- The three query modes (`COUNT_SELECT`, `CONTEXT_SELECT`,
`TRIPLE_SELECT`). -/
inductive SelectType where
  | countSelect
  | contextSelect
  | tripleSelect
deriving DecidableEq, Repr

/-- One entry of the UNION select-component list: table name, table alias,
where-clause string, and partition kind. -/
structure SelectComponent where
  table : String
  tblAlias : String
  clause : String
  kind : TableType
deriving DecidableEq, Repr

/-- Modelled from the spec: `STRONGLY_TYPED_TERMS` is a class attribute of
the external `AbstractSQLStore` base, not part of this repository.  The
spec's partition-selection conditions (§4.2 and §8: the asserted partition
is always included for non-literal objects, including regex objects) hold
exactly for the value `false`, which is used here. -/
def STRONGLY_TYPED_TERMS : Bool := false

/-- The literal-partition condition of `PostgreSQL.triples`
(lines 384-388 / 429-433). -/
def litCond (obj : Option Term) : Bool :=
  !STRONGLY_TYPED_TERMS || objIsLiteral obj || !(pyTruthy obj)
    || (STRONGLY_TYPED_TERMS && objIsRegex obj)

/-- The asserted-partition condition of `PostgreSQL.triples`
(lines 398-401 / 443-446); `and` binds tighter than `or` in Python. -/
def assertedCond (obj : Option Term) : Bool :=
  (!(objIsLiteral obj) && !(objIsRegex obj && STRONGLY_TYPED_TERMS)) || !(pyTruthy obj)

/-- The literal-partition select entry of `PostgreSQL.triples` together
with the parameters its clause contributes. -/
def litEntry (internedId : String) (s p o c : Option Term) :
    SelectComponent × List (Option Term) :=
  let cp := buildClause ("literal") s p o c false
  (⟨internedId ++ "_literal_statements", "literal", cp.1, .assertedLiteral⟩, cp.2)

/-- The asserted-partition select entry of `PostgreSQL.triples`. -/
def assertedEntry (internedId : String) (s p o c : Option Term) :
    SelectComponent × List (Option Term) :=
  let cp := buildClause ("asserted") s p o c false
  (⟨internedId ++ "_asserted_statements", "asserted", cp.1, .assertedNonType⟩, cp.2)

/-- The type-partition select entry of `PostgreSQL.triples`: the clause is
built with `buildClause('typeTable', subject, RDF.type, obj, context, True)`,
binding the subject to `member` and the object to `klass`. -/
def typeEntry (internedId : String) (s o c : Option Term) :
    SelectComponent × List (Option Term) :=
  let cp := buildClause ("typeTable") s (some (Term.uri rdfType)) o c true
  (⟨internedId ++ "_type_statements", "typeTable", cp.1, .assertedType⟩, cp.2)

/-- The quoted-partition select entry of `PostgreSQL.triples`. -/
def quotedEntry (internedId : String) (s p o c : Option Term) :
    SelectComponent × List (Option Term) :=
  let cp := buildClause ("quoted") s p o c false
  (⟨internedId ++ "_quoted_statements", "quoted", cp.1, .quoted⟩, cp.2)

/-- The select components built by `PostgreSQL.triples`
(PostgreSQL.py lines 360-468), each paired with the parameters its clause
contributed to the `parameters` list, in construction order:

* if `predicate == RDF.type`, only the type entry (lines 362-375);
* else if the predicate is a regex matching `rdf:type` or is falsy, the
  literal entry (under its object condition), the asserted entry (under its
  object condition), and always the type entry (lines 377-422);
* otherwise (truthy concrete non-type predicate) the literal and asserted
  entries under the same object conditions (lines 424-455);
* finally, whenever `context is not None`, the quoted entry is appended
  (lines 457-468). -/
def triplesBaseEntries (internedId : String) (subject predicate obj context : Option Term) :
    List (SelectComponent × List (Option Term)) :=
  if pyEqRdfType predicate then
    [typeEntry internedId subject obj context]
  else if regexMatchesType predicate || !(pyTruthy predicate) then
    (if litCond obj then [litEntry internedId subject predicate obj context] else [])
      ++ (if assertedCond obj then [assertedEntry internedId subject predicate obj context] else [])
      ++ [typeEntry internedId subject obj context]
  else
    (if litCond obj then [litEntry internedId subject predicate obj context] else [])
      ++ (if assertedCond obj then [assertedEntry internedId subject predicate obj context] else [])

/-- The full select-component list of `PostgreSQL.triples`: the
branch-dependent entries followed, whenever `context is not None`, by the
quoted entry (PostgreSQL.py lines 457-468). -/
def triplesEntries (internedId : String) (subject predicate obj context : Option Term) :
    List (SelectComponent × List (Option Term)) :=
  triplesBaseEntries internedId subject predicate obj context
    ++ (match context with
      | none => []
      | some _ => [quotedEntry internedId subject predicate obj context])

/-- The `(selects, parameters)` pair built by `PostgreSQL.triples` before
the query is rendered and executed. -/
def triplesPlan (internedId : String) (subject predicate obj context : Option Term) :
    List SelectComponent × List (Option Term) :=
  let entries := triplesEntries internedId subject predicate obj context
  (entries.map Prod.fst, entries.foldl (fun acc e => acc ++ e.2) [])

/-- Whether a partition kind occurs among a list of select components. -/
def includesPartition (selects : List SelectComponent) (k : TableType) : Bool :=
  selects.any (fun comp => comp.kind = k)

/-- The per-component SELECT statement built inside the loop of
`unionSELECT` (PostgreSQL.py lines 134-159): `selectString + tableSource +
whereClause`, where the pair is chosen by the `if`/`elif` chain on the
select type and the table type. -/
def componentSelect (selectType : SelectType) (comp : SelectComponent) : String :=
  if selectType = SelectType.countSelect then
    "select count(*)" ++ (" from " ++ comp.table ++ " ") ++ comp.clause
  else if selectType = SelectType.contextSelect then
    ("select " ++ comp.tblAlias ++ ".context")
      ++ (" from " ++ comp.table ++ " as " ++ comp.tblAlias ++ " ") ++ comp.clause
  else if FULL_TRIPLE_PARTITIONS.contains comp.kind then
    "select *" ++ (" from " ++ comp.table ++ " as " ++ comp.tblAlias ++ " ") ++ comp.clause
  else if comp.kind = TableType.assertedType then
    ("select " ++ comp.tblAlias ++ ".member as subject,"
      ++ ("'" ++ rdfType ++ "' as predicate,")
      ++ (comp.tblAlias ++ ".klass as object,")
      ++ (comp.tblAlias ++ ".context as context,")
      ++ (comp.tblAlias ++ ".termComb as termComb,")
      ++ "NULL as objLanguage, NULL as objDatatype")
      ++ (" from " ++ comp.table ++ " as " ++ comp.tblAlias ++ " ") ++ comp.clause
  else
    "select *, NULL as objLanguage, NULL as objDatatype"
      ++ (" from " ++ comp.table ++ " as " ++ comp.tblAlias ++ " ") ++ comp.clause

/-- Translation of `unionSELECT` (PostgreSQL.py lines 124-167): the per-component SELECT
statements are accumulated in order and joined with `' union '` when
`distinct` is requested, `' union all '` otherwise; in `TRIPLE_SELECT` mode
an `order by subject, predicate, object` clause is appended. -/
def unionSELECT (selectComponents : List SelectComponent) (distinct : Bool)
    (selectType : SelectType) : String :=
  let selects := selectComponents.foldl (fun acc comp => acc ++ [componentSelect selectType comp]) []
  let orderStmt :=
    if selectType = SelectType.tripleSelect then (" order by subject, predicate, object") else ("")
  if distinct then
    String.intercalate (" union ") selects ++ orderStmt
  else
    String.intercalate (" union all ") selects ++ orderStmt

/-- A result row of the full-row (`TRIPLE_SELECT`) UNION query, as consumed
by the reconstructor loop of `PostgreSQL.triples`: `extractTriple` yields
the subject, predicate and object, and the graph information from which the
per-row context graph object is rebuilt (modelled by the context
identifier). -/
structure TRow where
  subj : String
  pred : String
  obj : String
  ctx : String
deriving DecidableEq, Repr

/-- The `(subject, predicate, object)` grouping key of a row
(`extractTriple(rt, self, context)[:3]`). -/
def rowKey (r : TRow) : String × String × String := (r.subj, r.pred, r.obj)

/-- The inner `while sameTriple` loop of the reconstructor of
`PostgreSQL.triples` (PostgreSQL.py lines 478-488): `key` is the
`(subject, predicate, object)` of the row that opened the current group and
`acc` holds the context graph objects collected so far (most recent first);
while the next row has the same key its context is appended, otherwise the
group is yielded and the next row opens a new group. -/
def reconstructGo (key : String × String × String) (acc : List String) :
    List TRow → List ((String × String × String) × List String)
  | [] => [(key, acc.reverse)]
  | r :: rest =>
    if rowKey r = key then reconstructGo key (r.ctx :: acc) rest
    else (key, acc.reverse) :: reconstructGo (rowKey r) [r.ctx] rest

/-- The result reconstructor loop of `PostgreSQL.triples`
(PostgreSQL.py lines 472-489): each row whose key matches the group opened
by the previous rows contributes its context graph object to that group, in
row order; a row with a different key yields the pending group and opens a
new one. -/
def reconstructTriples : List TRow → List ((String × String × String) × List String)
  | [] => []
  | r :: rest => reconstructGo (rowKey r) [r.ctx] rest

/-- A row of the type partition (`member`, `klass`, `context`, `termComb`);
only the columns relevant to counting and context filtering are kept. -/
structure TypeRow where
  member : String
  klass : String
  ctx : String
deriving DecidableEq, Repr

/-- The stored state of the four statement partitions. -/
structure DB where
  typeRows : List TypeRow
  assertedRows : List TRow
  literalRows : List TRow
  quotedRows : List TRow
deriving DecidableEq, Repr

/-- Result of `select count(*) from <triple partition> [where context = c]`:
the number of rows, restricted to the given context when the `__len__`
context filter built by `buildContextClause` is present. -/
def countRows (ctxFilter : Option String) (rows : List TRow) : Nat :=
  match ctxFilter with
  | none => rows.length
  | some c => (rows.filter (fun r => r.ctx = c)).length

/-- Result of `select count(*)` on the type partition. -/
def countTypeRows (ctxFilter : Option String) (rows : List TypeRow) : Nat :=
  match ctxFilter with
  | none => rows.length
  | some c => (rows.filter (fun r => r.ctx = c)).length

/-- Semantics of executing the `COUNT_SELECT` union built by `unionSELECT`
and summing the fetched rows (`reduce(lambda x, y: x + y, ...)`): each
per-partition `select count(*)` contributes one single-column row; with
`distinct` the selects are joined by `union`, which deduplicates equal
result rows (equal counts), while `union all` keeps them all. -/
def runCountUnion (distinct : Bool) (counts : List Nat) : Nat :=
  if distinct then counts.dedup.sum else counts.sum

/-- Translation of `PostgreSQL.__len__` (PostgreSQL.py lines 545-637): with a context the
four partitions (type, quoted, asserted, literal, in that order) are
counted with `distinct=True`; without a context only the type, asserted and
literal partitions are counted with `distinct=False`; the fetched counts
are summed. -/
def pgLen (db : DB) (context : Option String) : Nat :=
  match context with
  | some c =>
    runCountUnion true
      [countTypeRows (some c) db.typeRows,
       countRows (some c) db.quotedRows,
       countRows (some c) db.assertedRows,
       countRows (some c) db.literalRows]
  | none =>
    runCountUnion false
      [countTypeRows none db.typeRows,
       countRows none db.assertedRows,
       countRows none db.literalRows]

/-- The number of stored rows that actually match the given context, across
all four partitions. -/
def matchingRowCount (db : DB) (c : String) : Nat :=
  countTypeRows (some c) db.typeRows + countRows (some c) db.quotedRows
    + countRows (some c) db.assertedRows + countRows (some c) db.literalRows

/-- A parameter handed to `executeSQL`: an `int` or a (unicode) string. -/
inductive SqlParam where
  | int (n : Int)
  | str (s : String)
deriving DecidableEq, Repr

/-- Whether a character is an ASCII lowercase letter
(`string.ascii_lowercase`). -/
def isLowerAlpha (c : Char) : Bool := 'a' ≤ c && c ≤ 'z'

/-- Translation of `prepitem` inside `executeSQL` (PostgreSQL.py lines 791-801): an `int`
or the literal token `'NULL'` is returned unchanged; any other value is
wrapped between two copies of the dollar-quote delimiter `$tag$`, where
`tag` joins the five characters drawn by
`random.choice(string.ascii_lowercase)` — modelled by the supplied stream
of random characters, of which the first five are taken. -/
def prepitem (rand : List Char) (item : SqlParam) : String :=
  match item with
  | .int n => toString n
  | .str s =>
    if s = "NULL" then s
    else
      let tag := "$" ++ String.mk (rand.take 5) ++ "$"
      tag ++ s ++ tag

/-- Whether a parameter consumes randomness, i.e. is neither an `int` nor
the literal token `'NULL'` and therefore gets a fresh delimiter. -/
def paramIsEscaped : SqlParam → Bool
  | .int _ => false
  | .str s => s ≠ "NULL"

/-- Translation of `params = tuple([prepitem(item) for item in params])`
(PostgreSQL.py line 808): each parameter is prepared in order, each escaped
parameter drawing five fresh characters from the random stream. -/
def prepParams : List Char → List SqlParam → List String
  | _, [] => []
  | rand, p :: rest =>
    if paramIsEscaped p then
      prepitem rand p :: prepParams (rand.drop 5) rest
    else
      prepitem rand p :: prepParams rand rest

/-- Python `%`-formatting restricted to `%s` placeholders, which are the
only conversions occurring in the queries this store builds: each `%s` is
replaced, left to right, by the next parameter. -/
def pyFormatAux : List Char → List String → String
  | [], _ => ""
  | [c], _ => String.singleton c
  | c :: c2 :: cs, ps =>
    if c = '%' ∧ c2 = 's' then
      match ps with
      | p :: ps2 => p ++ pyFormatAux cs ps2
      | [] => String.singleton c ++ pyFormatAux (c2 :: cs) []
    else String.singleton c ++ pyFormatAux (c2 :: cs) ps

/-- Python `querystr % params` for `%s`-only query strings. -/
def pyFormat (s : String) (ps : List String) : String := pyFormatAux s.toList ps

/-- Python `unicode(qStr).replace('"', "'")` (PostgreSQL.py line 809). -/
def replaceQuotes (s : String) : String :=
  String.mk (s.toList.map (fun c => if c = Char.ofNat 34 then Char.ofNat 39 else c))

/-- The parameter-rendering path of `executeSQL`
(PostgreSQL.py lines 807-812), taken when parameters are supplied: the
prepared parameters are substituted for the placeholders of the query text,
whose double quotes were first replaced by single quotes. -/
def renderSQL (qStr : String) (params : List SqlParam) (rand : List Char) : String :=
  pyFormat (replaceQuotes qStr) (prepParams rand params)

/-- A configuration value: configuration entries are strings except `port`,
which `ParseConfigurationString` replaces by an `int`. -/
inductive CVal where
  | s (v : String)
  | i (v : Int)
deriving DecidableEq, Repr

/-- A Python dict modelled as an association list where a later binding of
a key shadows an earlier one: assignment appends. -/
def dictSet {α : Type} (d : List (String × α)) (k : String) (v : α) : List (String × α) :=
  d ++ [(k, v)]

/-- Dict lookup: the most recent binding of the key. -/
def dictGet {α : Type} (d : List (String × α)) (k : String) : Option α :=
  (d.reverse.find? (fun p => p.1 = k)).map Prod.snd

/-- The failures `ParseConfigurationString` can raise: a part without `=`
(`ValueError` while unpacking), a failed required-key `assert`
(`AssertionError`), or the `RuntimeError` for a malformed port. -/
inductive ConfigError where
  | malformed
  | missingKey (k : String)
  | badPort
deriving DecidableEq, Repr

/-- Python `str.strip()`: drop surrounding whitespace. -/
def stripChars (cs : List Char) : List Char :=
  ((cs.dropWhile Char.isWhitespace).reverse.dropWhile Char.isWhitespace).reverse

/-- Python `s.split(sep)` with an explicit one-character separator:
consecutive separators produce empty parts. -/
def splitOnChar (sep : Char) : List Char → List (List Char)
  | [] => [[]]
  | c :: rest =>
    let r := splitOnChar sep rest
    if c = sep then [] :: r
    else
      match r with
      | h :: t => (c :: h) :: t
      | [] => [[c]]

/-- Split a character list at the first occurrence of a character
(`s.split(c, 1)` when the character occurs). -/
def splitFirst (sep : Char) : List Char → Option (List Char × List Char)
  | [] => none
  | c :: rest =>
    if c = sep then some ([], rest)
    else
      match splitFirst sep rest with
      | some (k, v) => some (c :: k, v)
      | none => none

/-- Python `int(s)` on a string: surrounding whitespace is ignored, then an
optional sign followed by at least one digit. -/
def pyInt (s : String) : Option Int :=
  let cs := stripChars s.toList
  let signDigits : Bool × List Char :=
    match cs with
    | c :: rest =>
      if c = '-' then (true, rest)
      else if c = '+' then (false, rest)
      else (false, cs)
    | [] => (false, [])
  if signDigits.2 = [] || !(signDigits.2.all Char.isDigit) then none
  else
    let n : Nat := signDigits.2.foldl (fun acc c => acc * 10 + (c.toNat - 48)) 0
    some (if signDigits.1 then -(n : Int) else (n : Int))

/-- Python `part.split('=', 1)` followed by unpacking and stripping: fails
(`ValueError` while unpacking the single-element list) when the part
contains no `=`. -/
def splitKV (part : List Char) : Option (String × String) :=
  match splitFirst '=' part with
  | none => none
  | some (k, v) => some (String.mk (stripChars k), String.mk (stripChars v))

/-- The `kvDict` construction of `ParseConfigurationString`
(PostgreSQL.py lines 83-86): split on single spaces, split each part at the
first `=`, strip, and build the dict (later duplicates overwrite). -/
def configKVs (config : String) : Except ConfigError (List (String × String)) :=
  match (splitOnChar ' ' config.toList).mapM splitKV with
  | none => .error .malformed
  | some l => .ok (l.foldl (fun d p => dictSet d p.1 p.2) [])

/-- Python `kvDict.setdefault('password', '')` (PostgreSQL.py line 97). -/
def setdefaultPassword (d : List (String × CVal)) : List (String × CVal) :=
  if (dictGet d ("password")).isSome then d else dictSet d ("password") (CVal.s (""))

/-- Translation of `ParseConfigurationString` (PostgreSQL.py lines 72-98): parse the
`key=value` parts, assert that `user` and `dbname` are present, convert a
supplied `port` with `int` (raising `RuntimeError` on failure) or default
it to 5432, and default `password` to the empty string. -/
def ParseConfigurationString (config : String) : Except ConfigError (List (String × CVal)) :=
  match configKVs config with
  | .error e => .error e
  | .ok kv =>
    if (dictGet kv ("user")).isNone then .error (.missingKey ("user"))
    else if (dictGet kv ("dbname")).isNone then .error (.missingKey ("dbname"))
    else
      let d : List (String × CVal) := kv.map (fun p => (p.1, CVal.s p.2))
      match dictGet kv ("port") with
      | some v =>
        match pyInt v with
        | some n => .ok (setdefaultPassword (dictSet d ("port") (CVal.i n)))
        | none => .error .badPort
      | none => .ok (setdefaultPassword (dictSet d ("port") (CVal.i 5432)))

/-- The SQL statements issued by `init_db` and `destroy`, abstracted by
shape. -/
inductive SQLCmd where
  | createTable (name : String)
  | commentOn (name : String)
  | createIndex (index : String) (tbl : String)
  | deleteFrom (name : String)
  | dropTable (name : String)
  | dropIndex (index : String)
deriving DecidableEq, Repr

/-- Whether a command is one of the DROP statements of `destroy`. -/
def isDrop : SQLCmd → Bool
  | .dropTable _ => true
  | .dropIndex _ => true
  | _ => false

/-- Modelled from the spec: `table_name_prefixes` is defined in the
external AbstractSQLStore module; per §6 the managed tables are the four
statement tables plus the namespace-binds table, each named by the store
identifier prefix. -/
def tableNames (internedId : String) : List String :=
  [internedId ++ "_asserted_statements",
   internedId ++ "_type_statements",
   internedId ++ "_quoted_statements",
   internedId ++ "_namespace_binds",
   internedId ++ "_literal_statements"]

/-- The tables created by `init_db`, in `CREATE_TABLE_STMTS` order
(PostgreSQL.py lines 929-935). -/
def createTableNames (internedId : String) : List String :=
  [internedId ++ "_asserted_statements",
   internedId ++ "_type_statements",
   internedId ++ "_quoted_statements",
   internedId ++ "_namespace_binds",
   internedId ++ "_literal_statements"]

/-- The tables receiving a `COMMENT ON TABLE` statement, in the order of
the loop at PostgreSQL.py lines 249-254. -/
def commentTableNames (internedId : String) : List String :=
  [internedId ++ "_asserted_statements",
   internedId ++ "_literal_statements",
   internedId ++ "_quoted_statements",
   internedId ++ "_type_statements",
   internedId ++ "_namespace_binds"]

/-- The `(indexName, tableName)` pairs of `INDICES`
(PostgreSQL.py lines 936-980), with the store identifier substituted. -/
def indexPairs (internedId : String) : List (String × String) :=
  [(internedId ++ "_A_termComb_index", internedId ++ "_asserted_statements"),
   (internedId ++ "_A_s_index", internedId ++ "_asserted_statements"),
   (internedId ++ "_A_p_index", internedId ++ "_asserted_statements"),
   (internedId ++ "_A_o_index", internedId ++ "_asserted_statements"),
   (internedId ++ "_A_c_index", internedId ++ "_asserted_statements"),
   (internedId ++ "_T_termComb_index", internedId ++ "_type_statements"),
   (internedId ++ "_member_index", internedId ++ "_type_statements"),
   (internedId ++ "_klass_index", internedId ++ "_type_statements"),
   (internedId ++ "_c_index", internedId ++ "_type_statements"),
   (internedId ++ "_L_termComb_index", internedId ++ "_literal_statements"),
   (internedId ++ "_L_s_index", internedId ++ "_literal_statements"),
   (internedId ++ "_L_p_index", internedId ++ "_literal_statements"),
   (internedId ++ "_L_c_index", internedId ++ "_literal_statements"),
   (internedId ++ "_Q_termComb_index", internedId ++ "_quoted_statements"),
   (internedId ++ "_Q_s_index", internedId ++ "_quoted_statements"),
   (internedId ++ "_Q_p_index", internedId ++ "_quoted_statements"),
   (internedId ++ "_Q_o_index", internedId ++ "_quoted_statements"),
   (internedId ++ "_Q_c_index", internedId ++ "_quoted_statements"),
   (internedId ++ "_uri_index", internedId ++ "_namespace_binds")]

/-- The schema state: the present tables with their row counts, and the
present index names. -/
structure DBState where
  tables : List (String × Nat)
  indexes : List String
deriving DecidableEq, Repr

/-- Whether a table is present. -/
def hasTable (st : DBState) (n : String) : Bool := st.tables.any (fun p => p.1 = n)

/-- Translation of `db_exists` (PostgreSQL.py lines 228-240): every managed table name
must appear in the catalog. -/
def db_exists (internedId : String) (st : DBState) : Bool :=
  (tableNames internedId).all (fun n => hasTable st n)

/-- The statements issued by `init_db` (PostgreSQL.py lines 242-275), each
paired with whether the source wraps it in `try`/`except`: when the store
does not exist, the five `CREATE TABLE`s, the five `COMMENT ON TABLE`s and
the `CREATE INDEX`es, none of them guarded; otherwise one guarded
`DELETE FROM` per managed table. -/
def initDbSteps (internedId : String) (st : DBState) : List (SQLCmd × Bool) :=
  if !(db_exists internedId st) then
    (createTableNames internedId).map (fun n => (SQLCmd.createTable n, false))
      ++ (commentTableNames internedId).map (fun n => (SQLCmd.commentOn n, false))
      ++ (indexPairs internedId).map (fun pr => (SQLCmd.createIndex pr.1 pr.2, false))
  else
    (tableNames internedId).map (fun n => (SQLCmd.deleteFrom n, true))

/-- The statements issued by `destroy` (PostgreSQL.py lines 277-320): first
whatever `init_db` issues, then one guarded `DROP TABLE IF EXISTS` per
managed table, then one guarded `DROP INDEX IF EXISTS` per index. -/
def destroySteps (internedId : String) (st : DBState) : List (SQLCmd × Bool) :=
  initDbSteps internedId st
    ++ (tableNames internedId).map (fun n => (SQLCmd.dropTable n, true))
    ++ (indexPairs internedId).map (fun pr => (SQLCmd.dropIndex pr.1, true))

/-- Effect of a successfully executed statement on the schema state. -/
def applyCmd (st : DBState) (c : SQLCmd) : DBState :=
  match c with
  | .createTable n => { st with tables := st.tables ++ [(n, 0)] }
  | .commentOn _ => st
  | .createIndex i _ => { st with indexes := st.indexes ++ [i] }
  | .deleteFrom n => { st with tables := st.tables.map (fun p => if p.1 = n then (p.1, 0) else p) }
  | .dropTable n => { st with tables := st.tables.filter (fun p => p.1 ≠ n) }
  | .dropIndex i => { st with indexes := st.indexes.filter (fun j => j ≠ i) }

/-- Execute a statement sequence against the backend.  `failAt` says which
statement executions raise a backend error; a failure at a guarded
statement (`try`/`except` in the source) is swallowed and execution
continues, a failure at an unguarded statement propagates. -/
def runSteps (failAt : Nat → Bool) : Nat → DBState → List (SQLCmd × Bool) → Except (Nat × SQLCmd) DBState
  | _, st, [] => .ok st
  | i, st, (c, caught) :: rest =>
    if failAt i then
      if caught then runSteps failAt (i + 1) st rest
      else .error (i, c)
    else runSteps failAt (i + 1) (applyCmd st c) rest

/-- Run of `destroy` against a schema state with a given failure pattern. -/
def runDestroy (internedId : String) (st : DBState) (failAt : Nat → Bool) :
    Except (Nat × SQLCmd) DBState :=
  runSteps failAt 0 st (destroySteps internedId st)

/-- Whether an `Except` result is a success. -/
def isOkE {ε α : Type} : Except ε α → Bool
  | .ok _ => true
  | .error _ => false

instance {ε α : Type} [DecidableEq ε] [DecidableEq α] : DecidableEq (Except ε α) :=
  fun a b =>
    match a, b with
    | .ok x, .ok y =>
      if h : x = y then isTrue (by rw [h]) else isFalse (by intro hh; cases hh; exact h rfl)
    | .error x, .error y =>
      if h : x = y then isTrue (by rw [h]) else isFalse (by intro hh; cases hh; exact h rfl)
    | .ok _, .error _ => isFalse (by intro hh; cases hh)
    | .error _, .ok _ => isFalse (by intro hh; cases hh)

/-- The literal-partition condition always holds, since
`STRONGLY_TYPED_TERMS` is false. -/
theorem litCond_eq_true (o : Option Term) : litCond o = true := by
  simp [litCond, STRONGLY_TYPED_TERMS]

/-- The branch-dependent entries never contain the quoted partition. -/
theorem quoted_not_in_base (internedId : String) (s p o c : Option Term) :
    ((triplesBaseEntries internedId s p o c).map Prod.fst).any
      (fun comp => comp.kind = TableType.quoted) = false := by
  unfold triplesBaseEntries
  split
  · simp [typeEntry]
  · split
    · split <;> split <;>
        simp [typeEntry, litEntry, assertedEntry]
    · split <;> split <;>
        simp [typeEntry, litEntry, assertedEntry]

/-- C1 (amended): for a pattern whose predicate equals `rdf:type`, the
planner builds the type-partition entry — binding the subject to the
`member` column and the object to the `klass` column — and nothing else
except that, when a context is supplied, the quoted-partition entry is
appended after it. -/
theorem C1_type_predicate_selection (internedId : String) (s o c : Option Term) (p : Term)
    (hp : p.eqRdfType = true) :
    (triplesPlan internedId s (some p) o c).1
        = (typeEntry internedId s o c).1
            :: (match c with
              | none => []
              | some _ => [(quotedEntry internedId s (some p) o c).1])
      ∧ ∀ us uo : String, us ≠ "" → us ≠ "NULL" → uo ≠ "" → uo ≠ "NULL" →
          buildClause ("typeTable") (some (Term.uri us)) (some (Term.uri rdfType))
              (some (Term.uri uo)) none true
            = ("where typeTable.member=%s and typeTable.klass=%s",
                [some (Term.uri us), some (Term.uri uo)]) := by
  constructor
  · have h1 : pyEqRdfType (some p) = true := hp
    simp only [triplesPlan, triplesEntries, triplesBaseEntries, h1, if_pos]
    cases c <;> simp
  · intro us uo h1 h2 h3 h4
    simp [buildClause, buildTypeMemberClause, buildTypeClassClause, buildContextClause,
      buildGenericClause, toGCVal, columnRef, ClauseRes.pyTruthy, Term.isRegex, Term.val,
      h2, h4]
    decide

/-- C1 witness: concrete instance of the amended claim, with no context
(the single type entry) and with the member/klass binding evaluated. -/
theorem C1_type_predicate_selection_witness :
    (triplesPlan ("g") none (some (Term.uri rdfType)) none none).1
        = [(typeEntry ("g") none none none).1]
      ∧ buildClause ("typeTable") (some (Term.uri ("S"))) (some (Term.uri rdfType))
            (some (Term.uri ("O"))) none true
          = ("where typeTable.member=%s and typeTable.klass=%s",
              [some (Term.uri ("S")), some (Term.uri ("O"))]) := by
  have h := C1_type_predicate_selection ("g") none none none (Term.uri rdfType) (by decide)
  exact ⟨h.1, h.2 ("S") ("O") (by decide) (by decide) (by decide) (by decide)⟩

/-- C1 counterexample: with predicate `rdf:type` and a context supplied,
the select-component list also contains the quoted partition, so it is not
the single type entry. -/
theorem C1_counterexample :
    includesPartition
        (triplesPlan ("g") none (some (Term.uri rdfType)) none (some (Term.uri ("C")))).1
        TableType.quoted = true
      ∧ ((triplesPlan ("g") none (some (Term.uri rdfType)) none (some (Term.uri ("C")))).1).length
          = 2 := by
  exact ⟨by decide, by decide⟩

/-- C2 (amended): for patterns whose predicate does not equal `rdf:type`, a
literal object selects the literal partition, a non-literal (non-wildcard)
object selects the asserted partition, and a wildcard object selects both. -/
theorem C2_object_partition_selection (internedId : String) (s p o c : Option Term)
    (hp : pyEqRdfType p = false) :
    ((∃ t, o = some t ∧ t.isLiteral = true) →
        includesPartition (triplesPlan internedId s p o c).1 TableType.assertedLiteral = true)
      ∧ ((∃ t, o = some t ∧ t.isLiteral = false) →
        includesPartition (triplesPlan internedId s p o c).1 TableType.assertedNonType = true)
      ∧ (o = none →
        includesPartition (triplesPlan internedId s p o c).1 TableType.assertedLiteral = true
          ∧ includesPartition (triplesPlan internedId s p o c).1 TableType.assertedNonType
              = true) := by
  have hlit : includesPartition (triplesPlan internedId s p o c).1 TableType.assertedLiteral
      = true := by
    simp only [triplesPlan, triplesEntries, triplesBaseEntries, hp, if_neg, Bool.false_eq_true,
      not_false_iff, includesPartition, List.map_append, List.any_append, litCond_eq_true,
      if_true]
    split <;> simp [litEntry]
  have hass : assertedCond o = true →
      includesPartition (triplesPlan internedId s p o c).1 TableType.assertedNonType = true := by
    intro ha
    simp only [triplesPlan, triplesEntries, triplesBaseEntries, hp, Bool.false_eq_true,
      not_false_iff, includesPartition, List.map_append, List.any_append, litCond_eq_true,
      ha, if_true, if_neg]
    split <;> simp [assertedEntry]
  refine ⟨fun _ => hlit, fun ht => ?_, fun ho => ⟨hlit, ?_⟩⟩
  · rcases ht with ⟨t, rfl, htl⟩
    exact hass (by simp [assertedCond, objIsLiteral, htl, STRONGLY_TYPED_TERMS])
  · exact hass (by simp [assertedCond, ho, pyTruthy])

/-- C2 witness: concrete instances of the three amended cases. -/
theorem C2_object_partition_selection_witness :
    includesPartition
        (triplesPlan ("g") none (some (Term.uri ("pp"))) (some (Term.literal ("x"))) none).1
        TableType.assertedLiteral = true
      ∧ includesPartition
          (triplesPlan ("g") none (some (Term.uri ("pp"))) (some (Term.uri ("O"))) none).1
          TableType.assertedNonType = true
      ∧ includesPartition (triplesPlan ("g") none (some (Term.uri ("pp"))) none none).1
          TableType.assertedLiteral = true := by
  refine ⟨?_, ?_, ?_⟩
  · exact (C2_object_partition_selection ("g") none (some (Term.uri ("pp")))
      (some (Term.literal ("x"))) none (by decide)).1 ⟨_, rfl, by decide⟩
  · exact (C2_object_partition_selection ("g") none (some (Term.uri ("pp")))
      (some (Term.uri ("O"))) none (by decide)).2.1 ⟨_, rfl, by decide⟩
  · exact ((C2_object_partition_selection ("g") none (some (Term.uri ("pp")))
      none none (by decide)).2.2 rfl).1

/-- C2 counterexample: for the pattern `(None, rdf:type, Literal)` the
planner selects only the type partition, so a literal object does not put
the literal partition among the selects. -/
theorem C2_counterexample :
    includesPartition
        (triplesPlan ("g") none (some (Term.uri rdfType)) (some (Term.literal ("x"))) none).1
        TableType.assertedLiteral = false := by
  decide

/-- C3: the quoted partition appears among the select components if and
only if a context is explicitly supplied. -/
theorem C3_quoted_iff_context (internedId : String) (s p o c : Option Term) :
    includesPartition (triplesPlan internedId s p o c).1 TableType.quoted = c.isSome := by
  cases c with
  | none =>
    simp only [triplesPlan, triplesEntries, includesPartition, List.map_append,
      List.any_append, Option.isSome_none]
    have hq := quoted_not_in_base internedId s p o none
    simp [includesPartition] at hq
    simp
    exact hq
  | some ct =>
    simp only [triplesPlan, triplesEntries, includesPartition, List.map_append,
      List.any_append, Option.isSome_some]
    simp [quotedEntry]

/-- The inner reconstructor loop consumes an entire run of rows whose key
matches the open group, collecting their contexts. -/
theorem reconstructGo_run (k : String × String × String) (acc : List String)
    (run rest : List TRow) (hrun : ∀ r ∈ run, rowKey r = k) :
    reconstructGo k acc (run ++ rest)
      = reconstructGo k ((run.map TRow.ctx).reverse ++ acc) rest := by
  induction run generalizing acc with
  | nil => simp
  | cons r rs ih =>
    have hk : rowKey r = k := hrun r (by simp)
    simp only [List.cons_append, List.append_eq, reconstructGo, hk, if_pos]
    rw [ih (r.ctx :: acc) (fun x hx => hrun x (by simp [hx]))]
    congr 1
    simp

/-- C6: a maximal run of consecutive rows sharing one
`(subject, predicate, object)` key yields exactly one `(triple, contexts)`
pair whose contexts list holds one graph object per row of the run in row
order, and a row with a different key starts a new group. -/
theorem C6_reconstructor_grouping (run rest : List TRow) (k : String × String × String)
    (hne : run ≠ []) (hrun : ∀ r ∈ run, rowKey r = k)
    (hrest : ∀ r0, rest.head? = some r0 → rowKey r0 ≠ k) :
    reconstructTriples (run ++ rest)
      = (k, run.map TRow.ctx) :: reconstructTriples rest := by
  match run, hne with
  | r :: rs, _ =>
    have hk : rowKey r = k := hrun r (by simp)
    show reconstructGo (rowKey r) [r.ctx] (rs ++ rest) = _
    rw [hk, reconstructGo_run k [r.ctx] rs rest (fun x hx => hrun x (by simp [hx]))]
    cases rest with
    | nil =>
      simp [reconstructGo, reconstructTriples]
    | cons r2 rest2 =>
      have hk2 : ¬(rowKey r2 = k) := hrest r2 rfl
      simp only [reconstructGo, hk2, if_neg, reconstructTriples, if_false]
      simp

/-- C6 witness: two rows for the same triple in contexts C1 and C2 followed
by a row with a different key yield one pair with contexts [C1, C2] and a
second group. -/
theorem C6_reconstructor_grouping_witness :
    reconstructTriples
        [⟨"s", "p", "o", "C1"⟩, ⟨"s", "p", "o", "C2"⟩, ⟨"s2", "p", "o", "C3"⟩]
      = (("s", "p", "o"), ["C1", "C2"])
          :: reconstructTriples [⟨"s2", "p", "o", "C3"⟩] := by
  exact C6_reconstructor_grouping
    [⟨"s", "p", "o", "C1"⟩, ⟨"s", "p", "o", "C2"⟩] [⟨"s2", "p", "o", "C3"⟩]
    ("s", "p", "o") (by decide) (by decide)
    (fun r0 h => by
      cases h
      decide)

/-- Associativity of string concatenation (via the list model). -/
theorem stringAppendAssoc (a b c : String) : a ++ b ++ c = a ++ (b ++ c) := by
  rcases a with ⟨da⟩
  rcases b with ⟨db⟩
  rcases c with ⟨dc⟩
  show String.mk (da ++ db ++ dc) = String.mk (da ++ (db ++ dc))
  rw [List.append_assoc]

/-- Accumulating with singleton appends is `map`. -/
theorem foldl_append_singleton {α β : Type} (f : α → β) (l : List α) (init : List β) :
    l.foldl (fun acc x => acc ++ [f x]) init = init ++ l.map f := by
  induction l generalizing init with
  | nil => simp
  | cons a l ih => simp [ih]

/-- C4: without a context filter, `__len__` sums exactly the type, asserted
and literal partition row counts (the quoted partition is excluded and
nothing is counted twice).  With a context filter, however, the four
per-partition `select count(*)` statements are combined with `union`
(distinct), which deduplicates equal count values before the sum: on a
store holding one asserted row and one literal row in context `C`, the code
computes 1 although 2 stored rows match the context. -/
theorem C4_len_evaluation :
    (∀ db : DB, pgLen db none
        = db.typeRows.length + db.assertedRows.length + db.literalRows.length)
      ∧ pgLen ⟨[], [⟨"s1", "p1", "o1", "C"⟩], [⟨"s2", "p2", "o2", "C"⟩], []⟩ (some ("C")) = 1
      ∧ matchingRowCount ⟨[], [⟨"s1", "p1", "o1", "C"⟩], [⟨"s2", "p2", "o2", "C"⟩], []⟩ ("C")
          = 2 := by
  refine ⟨fun db => ?_, by decide, by decide⟩
  simp [pgLen, runCountUnion, countRows, countTypeRows]
  omega

set_option maxHeartbeats 1000000 in
/-- C5: for a non-empty component list, `unionSELECT` joins the
per-partition SELECT statements with `' union all '` (`' union '` when
deduplication is requested) and appends the order-by clause exactly in
full-row triple mode; the type partition projects `member` as subject, the
`rdf:type` URI as a constant predicate, `klass` as object, plus context,
termComb and NULL language/datatype columns; the asserted non-type
partition projects its native columns plus the two NULL columns; the
full-triple (quoted and literal) partitions project their native columns
unchanged; count and context mode have no order clause. -/
theorem C5_unionSELECT_shape (comps : List SelectComponent) (d : Bool) (st : SelectType)
    (hne : comps ≠ ([] : List SelectComponent)) :
    unionSELECT comps d st
        = String.intercalate (if d then (" union ") else (" union all "))
              (comps.map (componentSelect st))
            ++ (if st = SelectType.tripleSelect
              then (" order by subject, predicate, object") else (""))
      ∧ (∀ n a w : String,
          componentSelect SelectType.tripleSelect ⟨n, a, w, TableType.assertedType⟩
            = "select " ++ a
                ++ ".member as subject,'http://www.w3.org/1999/02/22-rdf-syntax-ns#type' as predicate,"
                ++ a ++ ".klass as object," ++ a ++ ".context as context," ++ a
                ++ ".termComb as termComb,"
                ++ "NULL as objLanguage, NULL as objDatatype from " ++ n ++ " as " ++ a
                ++ " " ++ w)
      ∧ (∀ n a w : String,
          componentSelect SelectType.tripleSelect ⟨n, a, w, TableType.assertedNonType⟩
            = "select *, NULL as objLanguage, NULL as objDatatype from " ++ n ++ " as "
                ++ a ++ " " ++ w)
      ∧ (∀ (n a w : String) (k : TableType),
          k = TableType.quoted ∨ k = TableType.assertedLiteral →
            componentSelect SelectType.tripleSelect ⟨n, a, w, k⟩
              = "select * from " ++ n ++ " as " ++ a ++ " " ++ w)
      ∧ (∀ (n a w : String) (k : TableType),
          componentSelect SelectType.countSelect ⟨n, a, w, k⟩
            = "select count(*) from " ++ n ++ " " ++ w)
      ∧ (∀ (n a w : String) (k : TableType),
          componentSelect SelectType.contextSelect ⟨n, a, w, k⟩
            = "select " ++ a ++ ".context from " ++ n ++ " as " ++ a ++ " " ++ w) := by
  refine ⟨?_, ?_, ?_, ?_, ?_, ?_⟩
  · unfold unionSELECT
    rw [foldl_append_singleton]
    cases d <;> cases st <;> simp
  · intro n a w
    simp only [componentSelect, stringAppendAssoc]
    rfl
  · intro n a w
    rfl
  · intro n a w k hk
    rcases hk with rfl | rfl <;> rfl
  · intro n a w k
    rfl
  · intro n a w k
    simp only [componentSelect, stringAppendAssoc]
    rfl

/-- C5 witness: the count-mode union over a single type-partition
component, with the theorem instantiated at a concrete component list. -/
theorem C5_unionSELECT_shape_witness :
    unionSELECT [⟨"g_type_statements", "typeTable", "", TableType.assertedType⟩]
        false SelectType.countSelect
      = String.intercalate (" union all ")
          [componentSelect SelectType.countSelect
            ⟨"g_type_statements", "typeTable", "", TableType.assertedType⟩] := by
  exact (C5_unionSELECT_shape
    [⟨"g_type_statements", "typeTable", "", TableType.assertedType⟩]
    false SelectType.countSelect (by decide)).1

/-- C7 counterexample: at a concrete regex term the produced fragment has
the parameter placeholder as the first `REGEXP` argument and the column
reference as the second — not the claimed `REGEXP(alias.column, <param>)`
shape with the column first. -/
theorem C7_counterexample :
    buildGenericClause ("subject") (GCVal.term (Term.regex (".*") false)) ("typeTable")
        = (ClauseRes.str (" REGEXP (%s,  typeTable.subject)"),
            [some (Term.regex (".*") false)])
      ∧ " REGEXP (%s,  typeTable.subject)" ≠ " REGEXP (typeTable.subject, %s)" := by
  exact ⟨by decide, by decide⟩

/-- C7 (amended): for a regex term the clause builder produces the
fragment `" REGEXP (%s,  alias.column)"` — the bound parameter placeholder
is the *first* argument and the column reference the *second*, because in
`" REGEXP (%s, " + " %s)" % (...)` the `%` formatting applies only to the
second string literal — together with a one-element parameter list holding
the regex value. -/
theorem C7_regex_clause (generic tableName v : String) (m : Bool)
    (ht : tableName ≠ "") :
    buildGenericClause generic (GCVal.term (Term.regex v m)) tableName
      = (ClauseRes.str (" REGEXP (%s,  " ++ tableName ++ "." ++ generic ++ ")"),
          [some (Term.regex v m)]) := by
  simp [buildGenericClause, Term.isRegex, columnRef, ht, stringAppendAssoc]
  rfl

/-- C7 witness: the amended fragment shape at a concrete regex term. -/
theorem C7_regex_clause_witness :
    buildGenericClause ("subject") (GCVal.term (Term.regex ("ab.*") true)) ("asserted")
      = (ClauseRes.str (" REGEXP (%s,  asserted.subject)"),
          [some (Term.regex ("ab.*") true)]) := by
  exact C7_regex_clause ("subject") ("asserted") ("ab.*") true (by decide)

/-- A query text containing one `%s` placeholder between consecutive
parts: the general shape of the parameterized queries this store builds. -/
def placeholderJoin : List String → String
  | [] => ""
  | [t] => t
  | t :: ts => t ++ ("%s" ++ placeholderJoin ts)

/-- The expected rendering: the text parts interleaved with the prepared
parameters. -/
def interleaveParams : List String → List String → String
  | [], _ => ""
  | [t], _ => t
  | t :: ts, [] => t ++ interleaveParams ts []
  | t :: ts, p :: ps => t ++ (p ++ interleaveParams ts ps)

/-- Prepending the empty string is the identity. -/
theorem emptyStringAppend (x : String) : String.mk [] ++ x = x := by
  rcases x with ⟨d⟩
  rfl

/-- Map `replaceQuotes` acts pointwise on characters, so it distributes over
concatenation. -/
theorem replaceQuotes_append (a b : String) :
    replaceQuotes (a ++ b) = replaceQuotes a ++ replaceQuotes b := by
  rcases a with ⟨da⟩
  rcases b with ⟨db⟩
  show replaceQuotes (String.mk (da ++ db)) = _
  simp [replaceQuotes]
  rfl

/-- Unfolding the formatter at a non-placeholder character. -/
theorem pyFormatAux_cons_of_ne (c : Char) (cs : List Char) (ps : List String)
    (hc : c ≠ '%') :
    pyFormatAux (c :: cs) ps = String.singleton c ++ pyFormatAux cs ps := by
  cases cs with
  | nil =>
    show String.singleton c = _
    rcases hx : pyFormatAux [] ps with ⟨d⟩
    simp [pyFormatAux] at hx
    rw [← hx]
    rfl
  | cons c2 cs2 =>
    simp [pyFormatAux, hc]

/-- Unfolding the formatter at a placeholder. -/
theorem pyFormatAux_placeholder (cs : List Char) (p : String) (ps : List String) :
    pyFormatAux ('%' :: 's' :: cs) (p :: ps) = p ++ pyFormatAux cs ps := by
  simp [pyFormatAux]

/-- Formatting passes a placeholder-free prefix through unchanged. -/
theorem pyFormatAux_append_of_no_percent (cs rest : List Char) (ps : List String)
    (h : ∀ c ∈ cs, c ≠ '%') :
    pyFormatAux (cs ++ rest) ps = String.mk cs ++ pyFormatAux rest ps := by
  induction cs with
  | nil => rw [List.nil_append, emptyStringAppend]
  | cons c cs ih =>
    have hc : c ≠ '%' := h c (by simp)
    rw [List.cons_append, pyFormatAux_cons_of_ne c (cs ++ rest) ps hc,
      ih (fun x hx => h x (by simp [hx]))]
    rcases hx : pyFormatAux rest ps with ⟨dr⟩
    rfl

/-- Rebuilding `String.mk` after `toList` is the identity. -/
theorem stringEta (s : String) : String.mk s.toList = s := by
  rcases s with ⟨d⟩
  rfl

/-- Quote replacement never produces a `%`, so a placeholder-free part
stays placeholder-free. -/
theorem replaceQuotes_no_percent (t : String) (h : ∀ c ∈ t.toList, c ≠ '%') :
    ∀ c ∈ (replaceQuotes t).toList, c ≠ '%' := by
  intro c hc
  rcases t with ⟨d⟩
  simp [replaceQuotes, String.toList] at hc
  rcases hc with ⟨a, ha, rfl⟩
  by_cases h34 : a = Char.ofNat 34
  · simp [h34]
  · simp [h34]
    exact h a ha

/-- Appending the empty string is the identity. -/
theorem stringAppendEmpty (x : String) : x ++ String.mk [] = x := by
  rcases x with ⟨d⟩
  show String.mk (d ++ []) = String.mk d
  rw [List.append_nil]

/-- Formatting a placeholder-free string leaves it unchanged. -/
theorem pyFormat_no_percent (s : String) (ps : List String)
    (h : ∀ c ∈ s.toList, c ≠ '%') : pyFormat s ps = s := by
  have h2 := pyFormatAux_append_of_no_percent s.toList [] ps h
  rw [List.append_nil] at h2
  show pyFormatAux s.toList ps = s
  rw [h2]
  have h3 : pyFormatAux ([] : List Char) ps = String.mk [] := rfl
  rw [h3, stringAppendEmpty, stringEta]

/-- Unfolding the parameter preparation at a cons. -/
theorem prepParams_cons (rand : List Char) (p : SqlParam) (ps : List SqlParam) :
    prepParams rand (p :: ps)
      = prepitem rand p
          :: prepParams (if paramIsEscaped p then rand.drop 5 else rand) ps := by
  by_cases h : paramIsEscaped p = true <;> simp [prepParams, h]

/-- The rendering of a query built from placeholder-free parts joined by
`%s` placeholders: the parts (quotes replaced) interleaved with the
prepared parameters. -/
theorem render_placeholderJoin (parts : List String) (ps : List SqlParam) (rand : List Char)
    (hnp : ∀ part ∈ parts, ∀ c ∈ part.toList, c ≠ '%')
    (har : parts.length = ps.length + 1) :
    renderSQL (placeholderJoin parts) ps rand
      = interleaveParams (parts.map replaceQuotes) (prepParams rand ps) := by
  induction parts generalizing ps rand with
  | nil => simp at har
  | cons t ts ih =>
    cases ts with
    | nil =>
      cases ps with
      | cons p ps2 => simp at har
      | nil =>
        show pyFormat (replaceQuotes t) [] = replaceQuotes t
        exact pyFormat_no_percent _ _ (replaceQuotes_no_percent t (hnp t (by simp)))
    | cons t2 ts2 =>
      cases ps with
      | nil => simp at har
      | cons p ps2 =>
        have hnpt : ∀ c ∈ t.toList, c ≠ '%' := hnp t (by simp)
        have hnp2 : ∀ part ∈ t2 :: ts2, ∀ c ∈ part.toList, c ≠ '%' :=
          fun q hq => hnp q (by simp [hq])
        have har2 : (t2 :: ts2).length = ps2.length + 1 := by simpa using har
        have ih2 := ih ps2 (if paramIsEscaped p then rand.drop 5 else rand) hnp2 har2
        unfold renderSQL pyFormat at ih2 ⊢
        show pyFormatAux
            ((replaceQuotes (t ++ ("%s" ++ placeholderJoin (t2 :: ts2)))).toList)
            (prepParams rand (p :: ps2)) = _
        rw [replaceQuotes_append, replaceQuotes_append, prepParams_cons]
        have hq : replaceQuotes ("%s") = "%s" := by decide
        rw [hq]
        have hdata : (replaceQuotes t
              ++ ("%s" ++ replaceQuotes (placeholderJoin (t2 :: ts2)))).toList
            = (replaceQuotes t).toList
              ++ ('%' :: 's' :: (replaceQuotes (placeholderJoin (t2 :: ts2))).toList) := by
          rcases hx : replaceQuotes t with ⟨dt⟩
          rcases hy : replaceQuotes (placeholderJoin (t2 :: ts2)) with ⟨dj⟩
          rfl
        rw [hdata,
          pyFormatAux_append_of_no_percent _ _ _ (replaceQuotes_no_percent t hnpt),
          stringEta, pyFormatAux_placeholder, ih2]
        simp only [List.map_cons]
        rfl

/-- C8: an integer parameter and the literal token `'NULL'` pass into the
query text unchanged; every other parameter is wrapped between two copies
of the same freshly drawn delimiter `$tag$`, `tag` being the 5-character
string drawn from the lowercase alphabet; and the rendered query is the
query text — double quotes replaced by single quotes — with each
placeholder replaced in order by its prepared parameter. -/
theorem C8_executor_parameter_rendering (rand : List Char) (hlen : 5 ≤ rand.length)
    (hlc : ∀ ch ∈ rand, isLowerAlpha ch = true) :
    (∀ n : Int, prepitem rand (SqlParam.int n) = toString n)
      ∧ prepitem rand (SqlParam.str ("NULL")) = "NULL"
      ∧ (∀ s : String, s ≠ "NULL" →
          ∃ tag : String, tag.length = 5
            ∧ (∀ ch ∈ tag.toList, isLowerAlpha ch = true)
            ∧ prepitem rand (SqlParam.str s)
                = "$" ++ tag ++ "$" ++ s ++ "$" ++ tag ++ "$")
      ∧ ∀ (parts : List String) (ps : List SqlParam),
          (∀ q ∈ parts, ∀ c ∈ q.toList, c ≠ '%') →
          parts.length = ps.length + 1 →
          renderSQL (placeholderJoin parts) ps rand
            = interleaveParams (parts.map replaceQuotes) (prepParams rand ps) := by
  refine ⟨fun n => rfl, rfl, fun s hs => ?_, fun parts ps h1 h2 =>
    render_placeholderJoin parts ps rand h1 h2⟩
  refine ⟨String.mk (rand.take 5), ?_, ?_, ?_⟩
  · show (rand.take 5).length = 5
    rw [List.length_take]
    exact Nat.min_eq_left hlen
  · intro ch hch
    exact hlc ch (List.take_subset _ _ hch)
  · simp only [prepitem, hs, if_neg, stringAppendAssoc]
    rfl

/-- C8 witness: the theorem applied to a concrete random stream, an
integer parameter and a one-placeholder query with a string parameter. -/
theorem C8_executor_parameter_rendering_witness :
    prepitem ("abcdefghij".toList) (SqlParam.int 42) = "42"
      ∧ renderSQL (placeholderJoin ["select x where a=", ""])
            [SqlParam.str ("v")] ("abcdefghij".toList)
          = interleaveParams (["select x where a=", ""].map replaceQuotes)
              (prepParams ("abcdefghij".toList) [SqlParam.str ("v")]) := by
  have h := C8_executor_parameter_rendering ("abcdefghij".toList) (by decide) (by decide)
  exact ⟨h.1 42, h.2.2.2 ["select x where a=", ""] [SqlParam.str ("v")]
    (by decide) (by decide)⟩

/-- Lookup after assignment: the assigned key returns the new value, any
other key is unaffected. -/
theorem dictGet_dictSet {α : Type} (d : List (String × α)) (k k' : String) (v : α) :
    dictGet (dictSet d k v) k' = if k' = k then some v else dictGet d k' := by
  unfold dictGet dictSet
  rw [List.reverse_append]
  by_cases h : k = k'
  · simp [List.find?, h]
  · have h2 : ¬(k' = k) := fun hh => h hh.symm
    simp [List.find?, h, h2]

/-- Lookup commutes with wrapping every value as a string configuration
value. -/
theorem dictGet_map_s (kv : List (String × String)) (k : String) :
    dictGet (kv.map (fun p => (p.1, CVal.s p.2))) k = (dictGet kv k).map CVal.s := by
  unfold dictGet
  rw [← List.map_reverse]
  generalize kv.reverse = l
  induction l with
  | nil => simp
  | cons p rest ih =>
    by_cases h : p.1 = k
    · rw [List.map_cons, List.find?_cons_of_pos _ (by simp [h]),
        List.find?_cons_of_pos _ (by simp [h])]
      simp
    · rw [List.map_cons, List.find?_cons_of_neg _ (by simp [h]),
        List.find?_cons_of_neg _ (by simp [h])]
      exact ih

/-- C9: configuration parsing fails when the required key `user` or
`dbname` is missing and when a supplied port value does not parse as an
integer; when parsing succeeds, a missing port defaults to 5432 and a
missing password defaults to the empty string. -/
theorem C9_config_parsing (config : String) (kv : List (String × String))
    (hkv : configKVs config = Except.ok kv) :
    ((dictGet kv ("user") = none ∨ dictGet kv ("dbname") = none) →
        isOkE (ParseConfigurationString config) = false)
      ∧ (∀ v, dictGet kv ("port") = some v → pyInt v = none →
          isOkE (ParseConfigurationString config) = false)
      ∧ ∀ d, ParseConfigurationString config = Except.ok d →
          (dictGet kv ("port") = none → dictGet d ("port") = some (CVal.i 5432))
            ∧ (dictGet kv ("password") = none →
                dictGet d ("password") = some (CVal.s (""))) := by
  refine ⟨?_, ?_, ?_⟩
  · intro hmiss
    rcases hmiss with hm | hm
    · simp [ParseConfigurationString, hkv, hm, isOkE]
    · by_cases hu : dictGet kv ("user") = none
      · simp [ParseConfigurationString, hkv, hu, isOkE]
      · simp [ParseConfigurationString, hkv, hu, hm, isOkE]
  · intro v hv hvi
    by_cases hu : dictGet kv ("user") = none
    · simp [ParseConfigurationString, hkv, hu, isOkE]
    · by_cases hd : dictGet kv ("dbname") = none
      · simp [ParseConfigurationString, hkv, hu, hd, isOkE]
      · simp [ParseConfigurationString, hkv, hu, hd, hv, hvi, isOkE]
  · intro d hd
    by_cases hu : dictGet kv ("user") = none
    · simp [ParseConfigurationString, hkv, hu, isOkE] at hd
    · by_cases hdb : dictGet kv ("dbname") = none
      · simp [ParseConfigurationString, hkv, hu, hdb, isOkE] at hd
      · constructor
        · intro hport
          simp [ParseConfigurationString, hkv, hu, hdb, hport] at hd
          rw [← hd]
          unfold setdefaultPassword
          by_cases hpw : (dictGet (dictSet (kv.map (fun p => (p.1, CVal.s p.2)))
              ("port") (CVal.i 5432)) ("password")).isSome
          · simp only [hpw, if_pos]
            simp [dictGet_dictSet]
          · simp only [hpw, if_neg, Bool.false_eq_true, not_false_iff]
            simp [dictGet_dictSet]
        · intro hpw
          have hg : ∀ x : CVal, dictGet (dictSet (kv.map (fun p => (p.1, CVal.s p.2)))
              ("port") x) ("password") = none := by
            intro x
            rw [dictGet_dictSet]
            simp [dictGet_map_s, hpw]
          rcases hp : dictGet kv ("port") with _ | v
          · simp [ParseConfigurationString, hkv, hu, hdb, hp] at hd
            rw [← hd]
            unfold setdefaultPassword
            simp [hg, dictGet_dictSet]
          · rcases hpi : pyInt v with _ | n
            · simp [ParseConfigurationString, hkv, hu, hdb, hp, hpi] at hd
            · simp [ParseConfigurationString, hkv, hu, hdb, hp, hpi] at hd
              rw [← hd]
              unfold setdefaultPassword
              simp [hg, dictGet_dictSet]

/-- C9 witness: concrete configuration strings for each behaviour. -/
theorem C9_config_parsing_witness :
    isOkE (ParseConfigurationString ("dbname=d")) = false
      ∧ isOkE (ParseConfigurationString ("user=u dbname=d port=xy")) = false
      ∧ dictGet [("user", CVal.s ("u")), ("dbname", CVal.s ("d")), ("port", CVal.i 5432),
            ("password", CVal.s (""))] ("port") = some (CVal.i 5432)
      ∧ dictGet [("user", CVal.s ("u")), ("dbname", CVal.s ("d")), ("port", CVal.i 5432),
            ("password", CVal.s (""))] ("password") = some (CVal.s ("")) := by
  refine ⟨?_, ?_, ?_, ?_⟩
  · exact (C9_config_parsing ("dbname=d") [("dbname", "d")] (by decide)).1
      (Or.inl (by decide))
  · exact (C9_config_parsing ("user=u dbname=d port=xy")
      [("user", "u"), ("dbname", "d"), ("port", "xy")] (by decide)).2.1
      ("xy") (by decide) (by decide)
  · exact (((C9_config_parsing ("user=u dbname=d") [("user", "u"), ("dbname", "d")]
      (by decide)).2.2
      [("user", CVal.s ("u")), ("dbname", CVal.s ("d")), ("port", CVal.i 5432),
        ("password", CVal.s (""))] (by decide)).1 (by decide))
  · exact (((C9_config_parsing ("user=u dbname=d") [("user", "u"), ("dbname", "d")]
      (by decide)).2.2
      [("user", CVal.s ("u")), ("dbname", CVal.s ("d")), ("port", CVal.i 5432),
        ("password", CVal.s (""))] (by decide)).2 (by decide))

/-- No statement issued by `init_db` is a DROP. -/
theorem initDb_no_drop (internedId : String) (st : DBState) :
    ∀ c ∈ (initDbSteps internedId st).map Prod.fst, (!(isDrop c)) = true := by
  intro c hc
  by_cases h : db_exists internedId st = true
  · have hs : initDbSteps internedId st
        = (tableNames internedId).map (fun n => (SQLCmd.deleteFrom n, true)) := by
      simp [initDbSteps, h]
    rw [hs, List.map_map] at hc
    rcases List.mem_map.1 hc with ⟨n, hn, heq⟩
    rw [← heq]
    rfl
  · have hb : db_exists internedId st = false := by
      revert h
      cases db_exists internedId st <;> simp
    have hs : initDbSteps internedId st
        = (createTableNames internedId).map (fun n => (SQLCmd.createTable n, false))
            ++ (commentTableNames internedId).map (fun n => (SQLCmd.commentOn n, false))
            ++ (indexPairs internedId).map (fun pr => (SQLCmd.createIndex pr.1 pr.2, false)) := by
      simp [initDbSteps, hb]
    rw [hs, List.map_append, List.map_append, List.map_map, List.map_map, List.map_map] at hc
    rcases List.mem_append.1 hc with hc2 | hc2
    · rcases List.mem_append.1 hc2 with hc3 | hc3
      · rcases List.mem_map.1 hc3 with ⟨n, hn, heq⟩
        rw [← heq]
        rfl
      · rcases List.mem_map.1 hc3 with ⟨n, hn, heq⟩
        rw [← heq]
        rfl
    · rcases List.mem_map.1 hc2 with ⟨pr, hpr, heq⟩
      rw [← heq]
      rfl

/-- Every DROP step of `destroy` is guarded by `try`/`except`. -/
theorem destroySteps_drop_caught (internedId : String) (st : DBState) :
    ∀ s ∈ destroySteps internedId st, isDrop s.1 = true → s.2 = true := by
  intro s hs hdrop
  unfold destroySteps at hs
  rcases List.mem_append.1 hs with hs2 | hs2
  · rcases List.mem_append.1 hs2 with hs3 | hs3
    · have := initDb_no_drop internedId st s.1 (List.mem_map_of_mem Prod.fst hs3)
      rw [hdrop] at this
      cases this
    · simp at hs3
      rcases hs3 with ⟨n, hn, rfl⟩
      rfl
  · simp at hs2
    rcases hs2 with ⟨pr, hpr, rfl⟩
    rfl

/-- Execution succeeds whenever every injected failure hits a guarded
step. -/
theorem runSteps_ok_of_caught (failAt : Nat → Bool) (steps : List (SQLCmd × Bool)) :
    ∀ (j : Nat) (st : DBState),
      (∀ (i : Nat) (hi : i < steps.length),
        failAt (j + i) = true → (steps.get ⟨i, hi⟩).2 = true) →
      isOkE (runSteps failAt j st steps) = true := by
  induction steps with
  | nil => intro j st h; rfl
  | cons sp rest ih =>
    intro j st h
    unfold runSteps
    by_cases hf : failAt j = true
    · have hc : sp.2 = true := h 0 (by simp) (by simpa using hf)
      simp only [hf, if_pos, hc, if_true, ite_true]
      exact ih (j + 1) st (fun i hi hfi => h (i + 1) (by simpa using hi)
        (by rw [show j + (i + 1) = j + 1 + i by omega]; exact hfi))
    · simp only [hf, Bool.false_eq_true, not_false_iff, if_neg]
      exact ih (j + 1) (applyCmd st sp.1) (fun i hi hfi => h (i + 1) (by simpa using hi)
        (by rw [show j + (i + 1) = j + 1 + i by omega]; exact hfi))

/-- Running without failures folds the plain command effects. -/
theorem runSteps_noFail (steps : List (SQLCmd × Bool)) :
    ∀ (j : Nat) (st : DBState),
      runSteps (fun _ => false) j st steps
        = Except.ok (steps.foldl (fun s stp => applyCmd s stp.1) st) := by
  induction steps with
  | nil => intro j st; rfl
  | cons sp rest ih =>
    intro j st
    unfold runSteps
    simp only [Bool.false_eq_true, if_neg, not_false_iff]
    exact ih (j + 1) (applyCmd st sp.1)

/-- Dropping tables never makes a table reappear. -/
theorem dropTables_preserve_absent (names : List String) :
    ∀ (s : DBState) (n : String), hasTable s n = false →
      hasTable (names.foldl (fun s2 m => applyCmd s2 (SQLCmd.dropTable m)) s) n = false := by
  induction names with
  | nil => intro s n h; exact h
  | cons m rest ih =>
    intro s n h
    apply ih
    show hasTable (applyCmd s (SQLCmd.dropTable m)) n = false
    simp only [applyCmd, hasTable] at h ⊢
    rw [List.any_eq_false] at h ⊢
    intro p hp
    exact h p (List.mem_filter.1 hp).1

/-- After folding the DROP TABLE statements, every named table is gone. -/
theorem dropTables_remove (names : List String) :
    ∀ (s : DBState) (n : String), n ∈ names →
      hasTable (names.foldl (fun s2 m => applyCmd s2 (SQLCmd.dropTable m)) s) n = false := by
  induction names with
  | nil => intro s n h; cases h
  | cons m rest ih =>
    intro s n h
    rcases List.mem_cons.1 h with rfl | h2
    · have h1 : hasTable (applyCmd s (SQLCmd.dropTable n)) n = false := by
        simp only [applyCmd, hasTable]
        rw [List.any_eq_false]
        intro p hp
        have hq := (List.mem_filter.1 hp).2
        simp at hq ⊢
        exact hq
      exact dropTables_preserve_absent rest (applyCmd s (SQLCmd.dropTable n)) n h1
    · exact ih _ n h2

/-- Dropping indexes leaves the tables untouched. -/
theorem dropIndexes_preserve_tables (prs : List (String × String)) :
    ∀ (s : DBState) (n : String),
      hasTable (prs.foldl (fun s2 pr => applyCmd s2 (SQLCmd.dropIndex pr.1)) s) n
        = hasTable s n := by
  induction prs with
  | nil => intro s n; rfl
  | cons pr rest ih =>
    intro s n
    rw [List.foldl_cons, ih]
    rfl

/-- C10: `destroy` first runs all of `init_db` before issuing any DROP (the
drop-free prefix of its statement trace is exactly the `init_db` trace); on
a store whose tables are absent it creates the five managed tables and
their indices before dropping; on an existing store it deletes the rows of
every managed table before dropping; a run in which every backend failure
hits a DROP statement completes without propagating; and a failure-free run
ends with no managed table present. -/
theorem C10_destroy_behaviour (internedId : String) (st : DBState) (failAt : Nat → Bool) :
    (((destroySteps internedId st).map Prod.fst).takeWhile (fun c => !(isDrop c))
        = (initDbSteps internedId st).map Prod.fst)
      ∧ (db_exists internedId st = false →
          ∀ n ∈ tableNames internedId,
            SQLCmd.createTable n ∈ (initDbSteps internedId st).map Prod.fst
              ∧ SQLCmd.dropTable n ∈ (destroySteps internedId st).map Prod.fst)
      ∧ (db_exists internedId st = false →
          ∀ pr ∈ indexPairs internedId,
            SQLCmd.createIndex pr.1 pr.2 ∈ (initDbSteps internedId st).map Prod.fst
              ∧ SQLCmd.dropIndex pr.1 ∈ (destroySteps internedId st).map Prod.fst)
      ∧ (db_exists internedId st = true →
          ∀ n ∈ tableNames internedId,
            SQLCmd.deleteFrom n ∈ (initDbSteps internedId st).map Prod.fst
              ∧ SQLCmd.dropTable n ∈ (destroySteps internedId st).map Prod.fst)
      ∧ ((∀ (i : Nat) (hi : i < (destroySteps internedId st).length),
            failAt i = true → isDrop ((destroySteps internedId st).get ⟨i, hi⟩).1 = true) →
          isOkE (runDestroy internedId st failAt) = true)
      ∧ (∀ st2, runDestroy internedId st (fun _ => false) = Except.ok st2 →
          ∀ n ∈ tableNames internedId, hasTable st2 n = false) := by
  have hDS : (destroySteps internedId st).map Prod.fst
      = (initDbSteps internedId st).map Prod.fst
          ++ (tableNames internedId).map SQLCmd.dropTable
          ++ (indexPairs internedId).map (fun pr => SQLCmd.dropIndex pr.1) := by
    unfold destroySteps
    simp [List.map_map, Function.comp]
    rfl
  refine ⟨?_, ?_, ?_, ?_, ?_, ?_⟩
  · rw [hDS, List.append_assoc,
      List.takeWhile_append_of_pos (initDb_no_drop internedId st)]
    have hrest : (((tableNames internedId).map SQLCmd.dropTable
        ++ (indexPairs internedId).map (fun pr => SQLCmd.dropIndex pr.1)).takeWhile
          (fun c => !(isDrop c))) = [] := by
      simp [tableNames, List.takeWhile, isDrop]
    rw [hrest, List.append_nil]
  · intro hb n hn
    have hInit : (initDbSteps internedId st).map Prod.fst
        = (createTableNames internedId).map SQLCmd.createTable
            ++ (commentTableNames internedId).map SQLCmd.commentOn
            ++ (indexPairs internedId).map (fun pr => SQLCmd.createIndex pr.1 pr.2) := by
      simp [initDbSteps, hb, List.map_map, Function.comp]
      rfl
    constructor
    · rw [hInit]
      exact List.mem_append_left _ (List.mem_append_left _ (List.mem_map_of_mem _ hn))
    · rw [hDS]
      exact List.mem_append_left _ (List.mem_append_right _ (List.mem_map_of_mem _ hn))
  · intro hb pr hpr
    have hInit : (initDbSteps internedId st).map Prod.fst
        = (createTableNames internedId).map SQLCmd.createTable
            ++ (commentTableNames internedId).map SQLCmd.commentOn
            ++ (indexPairs internedId).map (fun q => SQLCmd.createIndex q.1 q.2) := by
      simp [initDbSteps, hb, List.map_map, Function.comp]
      rfl
    constructor
    · rw [hInit]
      exact List.mem_append_right _ (List.mem_map_of_mem _ hpr)
    · rw [hDS]
      exact List.mem_append_right _ (List.mem_map_of_mem _ hpr)
  · intro hb n hn
    have hInit : (initDbSteps internedId st).map Prod.fst
        = (tableNames internedId).map SQLCmd.deleteFrom := by
      simp [initDbSteps, hb, List.map_map, Function.comp]
    constructor
    · rw [hInit]
      exact List.mem_map_of_mem _ hn
    · rw [hDS]
      exact List.mem_append_left _ (List.mem_append_right _ (List.mem_map_of_mem _ hn))
  · intro hOnly
    apply runSteps_ok_of_caught failAt (destroySteps internedId st) 0 st
    intro i hi hf
    rw [Nat.zero_add] at hf
    exact destroySteps_drop_caught internedId st _
      (List.get_mem _ _ _) (hOnly i hi hf)
  · intro st2 hrun n hn
    rw [runDestroy, runSteps_noFail] at hrun
    have hst : st2 = (destroySteps internedId st).foldl (fun s stp => applyCmd s stp.1) st := by
      cases hrun
      rfl
    rw [hst]
    unfold destroySteps
    rw [List.foldl_append, List.foldl_append, List.foldl_map, List.foldl_map]
    rw [dropIndexes_preserve_tables]
    exact dropTables_remove (tableNames internedId) _ n hn

/-- C10 witness: the theorem applied to a concrete empty schema state with
no injected failures. -/
theorem C10_destroy_behaviour_witness :
    SQLCmd.createTable ("g_asserted_statements")
        ∈ (initDbSteps ("g") ⟨[], []⟩).map Prod.fst
      ∧ SQLCmd.dropTable ("g_asserted_statements")
          ∈ (destroySteps ("g") ⟨[], []⟩).map Prod.fst
      ∧ isOkE (runDestroy ("g") ⟨[], []⟩ (fun _ => false)) = true := by
  have h := C10_destroy_behaviour ("g") ⟨[], []⟩ (fun _ => false)
  have hc := h.2.1 (by decide) ("g_asserted_statements") (by decide)
  exact ⟨hc.1, hc.2, h.2.2.2.2.1 (fun i hi hf => by simp at hf)⟩
